import Mathlib

/-!
Shallow embedding of the PR review-state synchronization engine of the
pull-request dashboard: the GitHub-client module's `fetchPullRequests`,
`processPR`, `calculatePRStatus` and `formatRelativeTime`, together with
theorems checking the specification's claims about them.

Modelling conventions:
* Timestamps are integers (epoch milliseconds, the value of
  `Date.prototype.getTime`); the wall clock `new Date()` is threaded
  explicitly as a `now : Int` parameter.
* Network effects are oracles passed in: the `GET /user` outcome and a
  map from repository reference to that repository's PR-list outcome
  (each listed PR paired with its review-fetch outcome).
* `Array.prototype.sort(cmp)` (required stable since ES2019) is modelled
  by a stable insertion sort with `le a b = (cmp a b ≤ 0)`: for a
  comparator inducing a total preorder every stable sort produces the
  same output, so this is an exact model.
-/

/-- Review states of the provider API (`reviews[].state`). -/
inductive ReviewState where
  | APPROVED
  | CHANGES_REQUESTED
  | COMMENTED
  | DISMISSED
deriving DecidableEq, Repr

/-- One element of a PR's `reviews` array: state, nullable submission
timestamp, and the reviewer's login (`review.user.login`). -/
structure Review where
  state : ReviewState
  submitted_at : Option Int
  userLogin : String
deriving DecidableEq, Repr

/-- The provider's raw pull-request representation (source interface
`GitHubPR`); nested objects are flattened to their used fields. -/
structure GitHubPR where
  id : Int
  number : Int
  title : String
  body : Option String
  stateOpen : Bool
  draft : Bool
  created_at : Int
  updated_at : Int
  closed_at : Option Int
  merged_at : Option Int
  userLogin : String
  userAvatar : String
  labels : List (String × String)
  html_url : String
  headRef : String
  baseRef : String
  requested_reviewers : List String
  reviews : Option (List Review)
deriving DecidableEq, Repr

/-- The four classification outcomes (`"pending" | "re-review" |
"stagnant" | "reviewed"`). -/
inductive Status where
  | pending
  | reReview
  | stagnant
  | reviewed
deriving DecidableEq, Repr

/-- The engine's output record (source interface `ProcessedPR`). -/
structure ProcessedPR where
  id : Int
  title : String
  repo : String
  number : Int
  author : String
  authorAvatar : String
  status : Status
  updatedAt : String
  updatedAtTimestamp : Int
  createdAt : String
  createdAtTimestamp : Int
  labels : List String
  url : String
  lastReviewedByCurrentUser : Option Int
deriving DecidableEq, Repr

/-- The error class thrown by the client (`GitHubAPIError`): message,
HTTP status, and optional remaining rate-limit quota. -/
structure GitHubAPIError where
  message : String
  status : Int
  rateLimitRemaining : Option Int
deriving DecidableEq, Repr

/-- The `GET /user` payload (source interface `GitHubUser`). -/
structure GitHubUser where
  login : String
  id : Int
  avatar_url : String
  name : Option String
  email : Option String
deriving DecidableEq, Repr

/-- Insert `a` before the first element `b` with `le a b`: the insertion
step of a stable sort. -/
def jsOrderedInsert (le : α → α → Bool) (a : α) : List α → List α
  | [] => [a]
  | b :: l => if le a b then a :: b :: l else b :: jsOrderedInsert le a l

/-- Stable insertion sort, the model of `Array.prototype.sort` with
`le a b = (comparator a b ≤ 0)` (see module docstring). -/
def jsStableSort (le : α → α → Bool) : List α → List α
  | [] => []
  | a :: l => jsOrderedInsert le a (jsStableSort le l)

/-- Source `formatRelativeTime` on integer epoch-millisecond inputs;
`Math.floor` of a real division of integers is `Int.fdiv`. -/
def formatRelativeTime (now dateMs : Int) : String :=
  let diffInSeconds := (now - dateMs).fdiv 1000
  if diffInSeconds < 60 then "just now"
  else
    let diffInMinutes := diffInSeconds.fdiv 60
    if diffInMinutes < 60 then toString diffInMinutes ++ "m ago"
    else
      let diffInHours := diffInMinutes.fdiv 60
      if diffInHours < 24 then toString diffInHours ++ "h ago"
      else
        let diffInDays := diffInHours.fdiv 24
        if diffInDays < 7 then toString diffInDays ++ "d ago"
        else
          let diffInWeeks := diffInDays.fdiv 7
          if diffInWeeks < 4 then toString diffInWeeks ++ "w ago"
          else
            let diffInMonths := diffInDays.fdiv 30
            toString diffInMonths ++ "mo ago"

/-- The review filter appearing verbatim in both `calculatePRStatus` and
`processPR`: keep reviews that are not `DISMISSED`, have a (truthy)
`submitted_at`, and whose reviewer login is the current user. -/
def qualifyingReviews (reviews : Option (List Review)) (currentUser : String) : List Review :=
  (reviews.getD []).filter fun r =>
    r.state != ReviewState.DISMISSED && r.submitted_at.isSome && r.userLogin == currentUser

/-- The `le` of the source's review sort, whose comparator is
`new Date(b.submitted_at!).getTime() - new Date(a.submitted_at!).getTime()`
(descending by submission time; `le a b = (cmp a b ≤ 0)`). -/
def reviewLe (a b : Review) : Bool :=
  decide (b.submitted_at.getD 0 ≤ a.submitted_at.getD 0)

/-- Source `calculatePRStatus(pr, currentUser)`.  The JS code computes
`daysSinceUpdate = (now - updated_at) / 86400000` in double precision
and tests `>= 5`; on integer millisecond inputs this is exactly
`now - updated_at >= 5 * 86400000` (5 is representable and the quotient
rounds away from it by far less than one ulp). -/
def calculatePRStatus (now : Int) (pr : GitHubPR) (currentUser : String) : Status :=
  if 5 * 86400000 ≤ now - pr.updated_at then Status.stagnant
  else
    let userReviews := qualifyingReviews pr.reviews currentUser
    if userReviews.length = 0 then Status.pending
    else
      match (jsStableSort reviewLe (userReviews.filter fun r => r.submitted_at.isSome)).head? with
      | none => Status.pending
      | some mostRecentUserReview =>
        if mostRecentUserReview.submitted_at.getD 0 < pr.updated_at then Status.reReview
        else if mostRecentUserReview.state = ReviewState.APPROVED then Status.reviewed
        else Status.pending

/-- Source `processPR(pr, repo, currentUser)`. -/
def processPR (now : Int) (pr : GitHubPR) (repo : String) (currentUser : String) : ProcessedPR :=
  let userReviews := qualifyingReviews pr.reviews currentUser
  { id := pr.id
    title := pr.title
    repo := repo
    number := pr.number
    author := pr.userLogin
    authorAvatar := pr.userAvatar
    status := calculatePRStatus now pr currentUser
    updatedAt := formatRelativeTime now pr.updated_at
    updatedAtTimestamp := pr.updated_at
    createdAt := formatRelativeTime now pr.created_at
    createdAtTimestamp := pr.created_at
    labels := pr.labels.map Prod.fst
    url := pr.html_url
    lastReviewedByCurrentUser :=
      if 0 < userReviews.length then
        ((jsStableSort reviewLe (userReviews.filter fun r => r.submitted_at.isSome)).head?).bind
          Review.submitted_at
      else none }

/-- Failure payload of a non-2xx per-repository PR-list response:
HTTP status, the provider's JSON error message (`""` when the body has
no truthy `message`, as with the `catch (() => ({}))` fallback), and the
parsed `X-RateLimit-Remaining` header when present. -/
structure RepoFailure where
  status : Int
  message : String
  rateLimitRemaining : Option Int
deriving DecidableEq, Repr

/-- Outcome of one repository's PR-list request: on success, the listed
PRs, each paired with the outcome of its review-list request (`some
reviews` on 2xx, `none` when that fetch failed). -/
abbrev RepoListResponse :=
  Except RepoFailure (List (GitHubPR × Option (List Review)))

/-- The review-fetch merge step of the source: on success the fetched
list replaces the PR's `reviews` field (`{ ...pr, reviews }`); on
failure the PR object from the list payload is returned unchanged. -/
def applyReviewFetch (e : GitHubPR × Option (List Review)) : GitHubPR :=
  match e.2 with
  | some revs => { e.1 with reviews := some revs }
  | none => e.1

/-- Models `new Date(s).getTime()` for the strings the final sort of
`fetchPullRequests` passes to it: the `updatedAt` field, which always
holds an output of `formatRelativeTime` ("just now", "3m ago", "2d ago",
…).  No ECMAScript `Date` parser accepts these, so the result is always
`NaN`, modelled as `none`. -/
def jsDateGetTime (s : String) : Option Int :=
  match s with
  | _ => none

/-- The final sort's comparator
`new Date(b.updatedAt).getTime() - new Date(a.updatedAt).getTime()`;
per the ES `SortCompare` step, a `NaN` comparator value is replaced by
`+0`. -/
def prSortCompare (a b : ProcessedPR) : Int :=
  match jsDateGetTime b.updatedAt, jsDateGetTime a.updatedAt with
  | some tb, some ta => tb - ta
  | _, _ => 0

/-- `le` derived from `prSortCompare` for the stable-sort model. -/
def prSortLe (a b : ProcessedPR) : Bool :=
  decide (prSortCompare a b ≤ 0)

/-- Split a character list at every occurrence of `sep`, accumulating
the current segment in reverse; auxiliary to `jsSplit`. -/
def jsSplitAux (sep : Char) (acc : List Char) : List Char → List String
  | [] => [String.mk acc.reverse]
  | c :: cs =>
    if c = sep then String.mk acc.reverse :: jsSplitAux sep [] cs
    else jsSplitAux sep (c :: acc) cs

/-- Models JavaScript `s.split(sep)` for a one-character separator, as
used in `repo.split("/")`: every separator occurrence ends a segment, so
`"a/b" ↦ ["a","b"]`, `"a/" ↦ ["a",""]`, `"" ↦ [""]`. -/
def jsSplit (s : String) (sep : Char) : List String :=
  jsSplitAux sep [] s.data

/-- One repository's slice of the fetch: the `owner/name` destructuring
check (throwing before that entry's network request), then the PR-list
request, then per-PR review merging and `processPR`.  The destructuring
`[owner, repoName] = repo.split("/")` takes the first two segments and
`!owner || !repoName` is true exactly when either is missing or empty.
The generic `Error` of the malformed-format check and the
`GitHubAPIError` of a failed list request are given here already in the
shape in which they leave `fetchPullRequests` (the surrounding `catch`
rethrows `GitHubAPIError`s unchanged and wraps other errors with status
500). -/
def fetchRepo (now : Int) (login : String) (repo : String) (resp : RepoListResponse) :
    Except GitHubAPIError (List ProcessedPR) :=
  if (jsSplit repo '/').getD 0 "" = "" ∨ (jsSplit repo '/').getD 1 "" = "" then
    Except.error
      { message := "Failed to fetch pull requests: Invalid repository format: " ++ repo
        status := 500
        rateLimitRemaining := none }
  else
    match resp with
    | Except.error f =>
      Except.error
        { message := if f.message = "" then "Failed to fetch PRs for " ++ repo else f.message
          status := f.status
          rateLimitRemaining := f.rateLimitRemaining }
    | Except.ok entries =>
      Except.ok (entries.map fun e => processPR now (applyReviewFetch e) repo login)

/-- The per-repository loop of `fetchPullRequests`.  The source issues
all repository requests concurrently and `Promise.all` surfaces the
first rejection in settlement order; settlement order depends on network
timing and is modelled as list order. -/
def syncRepos (now : Int) (login : String) (repoResp : String → RepoListResponse) :
    List String → Except GitHubAPIError (List ProcessedPR)
  | [] => Except.ok []
  | r :: rs =>
    match fetchRepo now login r (repoResp r) with
    | Except.error e => Except.error e
    | Except.ok ps =>
      match syncRepos now login repoResp rs with
      | Except.error e => Except.error e
      | Except.ok qs => Except.ok (ps ++ qs)

/-- Source `fetchPullRequests(repos, token)`, with the network as
oracles: `userResp` is the `GET /user` outcome and `repoResp` maps each
repository reference to its PR-list outcome. -/
def fetchPullRequests (now : Int) (repos : List String) (token : String)
    (userResp : Except GitHubAPIError GitHubUser)
    (repoResp : String → RepoListResponse) : Except GitHubAPIError (List ProcessedPR) :=
  if token = "" then
    Except.error { message := "GitHub token is required", status := 401, rateLimitRemaining := none }
  else if repos = [] then Except.ok []
  else
    match userResp with
    | Except.error e => Except.error e
    | Except.ok currentUser =>
      match syncRepos now currentUser.login repoResp repos with
      | Except.error e => Except.error e
      | Except.ok allPRs => Except.ok (jsStableSort prSortLe allPRs)

instance {ε α : Type} [DecidableEq ε] [DecidableEq α] : DecidableEq (Except ε α) := fun x y =>
  match x, y with
  | Except.ok a, Except.ok b =>
    if h : a = b then isTrue (by rw [h]) else isFalse (fun hh => h (Except.ok.inj hh))
  | Except.error a, Except.error b =>
    if h : a = b then isTrue (by rw [h]) else isFalse (fun hh => h (Except.error.inj hh))
  | Except.ok _, Except.error _ => isFalse Except.noConfusion
  | Except.error _, Except.ok _ => isFalse Except.noConfusion

/-- First element of the list attaining the maximum key: the element a
stable descending sort places first (ties broken by first occurrence in
input order, the deterministic tie-break of a stable sort). -/
def firstMaxBy (key : α → Int) : List α → Option α
  | [] => none
  | a :: l =>
    match firstMaxBy key l with
    | none => some a
    | some b => if key a < key b then some b else some a

/-- Status classification in the non-stagnant regime as claim C3 words
it: `pending` when the viewer has no qualifying review; otherwise, with
`r` the viewer's qualifying review of maximum `submitted_at`,
`re-review` when `updated_at` is strictly after `r.submitted_at`, else
`reviewed` when `r.state` is APPROVED, else `pending`. -/
def specClassify (pr : GitHubPR) (currentUser : String) : Status :=
  match firstMaxBy (fun r => r.submitted_at.getD 0)
      (qualifyingReviews pr.reviews currentUser) with
  | none => Status.pending
  | some r =>
    if r.submitted_at.getD 0 < pr.updated_at then Status.reReview
    else if r.state = ReviewState.APPROVED then Status.reviewed
    else Status.pending

/-- Relative-time formatting as claim C9 words it: thresholds by elapsed
time, displayed numbers by divisions floored toward zero (`Int.tdiv`),
weeks = days / 7 and months = days / 30. -/
def specFormatRelativeTime (now dateMs : Int) : String :=
  let diff := now - dateMs
  if diff < 60 * 1000 then "just now"
  else if diff < 60 * 60 * 1000 then toString (diff.tdiv (60 * 1000)) ++ "m ago"
  else if diff < 24 * 60 * 60 * 1000 then toString (diff.tdiv (60 * 60 * 1000)) ++ "h ago"
  else if diff < 7 * 86400000 then toString (diff.tdiv 86400000) ++ "d ago"
  else if diff < 4 * 7 * 86400000 then toString ((diff.tdiv 86400000).tdiv 7) ++ "w ago"
  else toString ((diff.tdiv 86400000).tdiv 30) ++ "mo ago"

/-- A repository reference passing the source's destructuring check:
its first two `/`-separated segments are non-empty. -/
def repoWellFormed (repo : String) : Prop :=
  (jsSplit repo '/').getD 0 "" ≠ "" ∧ (jsSplit repo '/').getD 1 "" ≠ ""

instance (repo : String) : Decidable (repoWellFormed repo) :=
  inferInstanceAs (Decidable (_ ∧ _))

/-- The processed records one repository contributes when its PR-list
request succeeds (empty on failure; used only to state results). -/
def repoOkOutput (now : Int) (login : String) (repoResp : String → RepoListResponse)
    (repo : String) : List ProcessedPR :=
  match repoResp repo with
  | Except.ok entries => entries.map fun e => processPR now (applyReviewFetch e) repo login
  | Except.error _ => []

/-- A concrete PR with no `reviews` field, used by witnesses. -/
def samplePR : GitHubPR :=
  { id := 1, number := 1, title := "t", body := none, stateOpen := true, draft := false,
    created_at := 0, updated_at := 50, closed_at := none, merged_at := none,
    userLogin := "bob", userAvatar := "av", labels := [("x", "red")], html_url := "u",
    headRef := "h", baseRef := "b", requested_reviewers := [], reviews := none }

/-- A concrete viewer, used by witnesses. -/
def aliceUser : GitHubUser :=
  { login := "alice", id := 7, avatar_url := "a", name := none, email := none }

/-- A stale draft PR already approved by the viewer (witness input). -/
def stagnantPR : GitHubPR :=
  { samplePR with draft := true,
                  reviews := some [⟨ReviewState.APPROVED, some 100, "alice"⟩] }

/-- A PR whose list payload already carries an approved review by the
viewer (counterexample input). -/
def approvedPayloadPR : GitHubPR :=
  { samplePR with reviews := some [⟨ReviewState.APPROVED, some 100, "alice"⟩] }

/-- The older of the two PRs of the sorting counterexample. -/
def olderPR : GitHubPR := { samplePR with id := 1, updated_at := 1000 }

/-- The newer of the two PRs of the sorting counterexample. -/
def newerPR : GitHubPR := { samplePR with id := 2, updated_at := 2000000 }

/-- Repository responses of the sorting counterexample: `o/a` holds the
older PR, `o/b` the newer one; both list fetches succeed. -/
def unsortedResp : String → RepoListResponse := fun repo =>
  if repo = "o/a" then Except.ok [(olderPR, none)] else Except.ok [(newerPR, none)]

/-- A failed repository list fetch with a provider message (status 500,
message "boom", 42 rate-limit remaining). -/
def boomFailure : RepoFailure := { status := 500, message := "boom", rateLimitRemaining := some 42 }

theorem jsOrderedInsert_of_true (le : α → α → Bool) (h : ∀ a b, le a b = true)
    (a : α) (l : List α) : jsOrderedInsert le a l = a :: l := by
  cases l <;> simp [jsOrderedInsert, h]

theorem jsStableSort_of_true (le : α → α → Bool) (h : ∀ a b, le a b = true) :
    ∀ l : List α, jsStableSort le l = l
  | [] => rfl
  | a :: l => by
    rw [jsStableSort, jsStableSort_of_true le h l, jsOrderedInsert_of_true le h]

theorem prSortLe_true (a b : ProcessedPR) : prSortLe a b = true := rfl

theorem jsStableSort_prSortLe (l : List ProcessedPR) : jsStableSort prSortLe l = l :=
  jsStableSort_of_true prSortLe prSortLe_true l

/-- C2: every PR whose `updated_at` lies 5 or more days before `now` is
classified `stagnant`, for every viewer, regardless of its review
history and draft flag: the staleness test is the first branch of
`calculatePRStatus` and returns before any other rule is consulted. -/
theorem c2_stagnant_priority (now : Int) (pr : GitHubPR) (currentUser : String)
    (h : 5 * 86400000 ≤ now - pr.updated_at) :
    calculatePRStatus now pr currentUser = Status.stagnant := by
  rw [calculatePRStatus, if_pos h]

theorem c2_stagnant_priority_witness :
    5 * 86400000 ≤ (500000000 : Int) - stagnantPR.updated_at
    ∧ calculatePRStatus 500000000 stagnantPR "alice" = Status.stagnant :=
  ⟨by decide, c2_stagnant_priority 500000000 stagnantPR "alice" (by decide)⟩

theorem qualifyingReviews_append_dismissed (l : List Review) (d : Review) (u : String)
    (hd : d.state = ReviewState.DISMISSED) :
    qualifyingReviews (some (l ++ [d])) u = qualifyingReviews (some l) u := by
  simp [qualifyingReviews, List.filter_append, hd]

theorem qualifyingReviews_all_dismissed (revs : List Review) (u : String)
    (h : ∀ x ∈ revs, x.state = ReviewState.DISMISSED) :
    qualifyingReviews (some revs) u = [] := by
  simp only [qualifyingReviews, Option.getD_some]
  rw [List.filter_eq_nil_iff]
  intro a ha
  simp [h a ha]

theorem calculatePRStatus_reviews_congr (now : Int) (pr : GitHubPR) (u : String)
    (revs : Option (List Review))
    (hq : qualifyingReviews revs u = qualifyingReviews pr.reviews u) :
    calculatePRStatus now { pr with reviews := revs } u = calculatePRStatus now pr u := by
  simp only [calculatePRStatus, hq]

theorem processPR_lastReviewed_congr (now : Int) (pr : GitHubPR) (repo u : String)
    (revs : Option (List Review))
    (hq : qualifyingReviews revs u = qualifyingReviews pr.reviews u) :
    (processPR now { pr with reviews := revs } repo u).lastReviewedByCurrentUser
      = (processPR now pr repo u).lastReviewedByCurrentUser := by
  simp only [processPR, hq]

/-- C4: appending a `DISMISSED` review changes neither the status
computed by `calculatePRStatus` nor the `lastReviewedByCurrentUser`
field computed by `processPR`, and a PR all of whose reviews are
dismissed is treated exactly like one with no reviews at all. -/
theorem c4_dismissed_invariance (now : Int) (pr : GitHubPR) (repo u : String) (d : Review)
    (hd : d.state = ReviewState.DISMISSED) :
    (calculatePRStatus now { pr with reviews := some (pr.reviews.getD [] ++ [d]) } u
        = calculatePRStatus now pr u
      ∧ (processPR now { pr with reviews := some (pr.reviews.getD [] ++ [d]) } repo u).lastReviewedByCurrentUser
        = (processPR now pr repo u).lastReviewedByCurrentUser)
    ∧ ∀ revs : List Review, (∀ x ∈ revs, x.state = ReviewState.DISMISSED) →
        calculatePRStatus now { pr with reviews := some revs } u
          = calculatePRStatus now { pr with reviews := none } u
        ∧ (processPR now { pr with reviews := some revs } repo u).lastReviewedByCurrentUser
          = (processPR now { pr with reviews := none } repo u).lastReviewedByCurrentUser := by
  have hq : qualifyingReviews (some (pr.reviews.getD [] ++ [d])) u
      = qualifyingReviews pr.reviews u := by
    rw [qualifyingReviews_append_dismissed _ _ _ hd]
    cases pr.reviews <;> simp [qualifyingReviews]
  refine ⟨⟨calculatePRStatus_reviews_congr now pr u _ hq,
           processPR_lastReviewed_congr now pr repo u _ hq⟩, ?_⟩
  intro revs hrevs
  have hq2 : qualifyingReviews (some revs) u = qualifyingReviews none u := by
    rw [qualifyingReviews_all_dismissed revs u hrevs]; rfl
  constructor
  · rw [calculatePRStatus_reviews_congr now { pr with reviews := none } u (some revs) hq2]
  · rw [processPR_lastReviewed_congr now { pr with reviews := none } repo u (some revs) hq2]

theorem c4_dismissed_invariance_witness :
    (⟨ReviewState.DISMISSED, some 90, "alice"⟩ : Review).state = ReviewState.DISMISSED
    ∧ calculatePRStatus 60 { approvedPayloadPR with
          reviews := some (approvedPayloadPR.reviews.getD [] ++ [⟨ReviewState.DISMISSED, some 90, "alice"⟩]) } "alice"
        = calculatePRStatus 60 approvedPayloadPR "alice" :=
  ⟨rfl, ((c4_dismissed_invariance 60 approvedPayloadPR "o/a" "alice"
      ⟨ReviewState.DISMISSED, some 90, "alice"⟩ rfl).1).1⟩

/-- C10: the draft flag influences neither `calculatePRStatus` nor any
field of the `processPR` output: the viewer-aware classifier never reads
`pr.draft`. -/
theorem c10_draft_noninterference (now : Int) (pr : GitHubPR) (b : Bool) (repo u : String) :
    calculatePRStatus now { pr with draft := b } u = calculatePRStatus now pr u
    ∧ processPR now { pr with draft := b } repo u = processPR now pr repo u :=
  ⟨rfl, rfl⟩

/-- C8: with an empty credential string, `fetchPullRequests` fails with
`GitHubAPIError` status 401 regardless of the repository list (even the
empty one) and of every provider response: the token check precedes the
empty-list short-circuit and no oracle is consulted. -/
theorem c8_empty_token (now : Int) (repos : List String)
    (userResp : Except GitHubAPIError GitHubUser) (repoResp : String → RepoListResponse) :
    fetchPullRequests now repos "" userResp repoResp
      = Except.error { message := "GitHub token is required", status := 401,
                       rateLimitRemaining := none } := rfl

theorem head_jsStableSort_reviewLe : ∀ l : List Review,
    (jsStableSort reviewLe l).head? = firstMaxBy (fun r => r.submitted_at.getD 0) l
  | [] => rfl
  | a :: l => by
    have ih := head_jsStableSort_reviewLe l
    rw [jsStableSort, firstMaxBy]
    cases hs : jsStableSort reviewLe l with
    | nil =>
      rw [hs] at ih
      rw [← ih]
      simp [jsOrderedInsert]
    | cons m s2 =>
      rw [hs] at ih
      rw [← ih]
      simp only [List.head?]
      by_cases hle : m.submitted_at.getD 0 ≤ a.submitted_at.getD 0
      · have hrl : reviewLe a m = true := by simp [reviewLe, hle]
        simp [jsOrderedInsert, hrl, not_lt.mpr hle]
      · have hrl : reviewLe a m = false := by simp [reviewLe]; omega
        simp [jsOrderedInsert, hrl, lt_of_not_le hle]

/-- C3: in the non-stagnant regime the source classifier agrees with the
claim's description `specClassify`: `pending` with no qualifying review,
otherwise `re-review` / `reviewed` / `pending` decided by the viewer's
most recent qualifying review (first occurrence on ties, the stable-sort
tie-break). -/
theorem c3_fresh_classification (now : Int) (pr : GitHubPR) (currentUser : String)
    (h : now - pr.updated_at < 5 * 86400000) :
    calculatePRStatus now pr currentUser = specClassify pr currentUser := by
  rw [calculatePRStatus, if_neg (by omega), specClassify]
  have hfilter : (qualifyingReviews pr.reviews currentUser).filter
      (fun r => r.submitted_at.isSome) = qualifyingReviews pr.reviews currentUser := by
    rw [List.filter_eq_self]
    intro r hr
    rw [qualifyingReviews] at hr
    have := (List.mem_filter.mp hr).2
    simp only [Bool.and_eq_true] at this
    exact this.1.2
  by_cases hlen : (qualifyingReviews pr.reviews currentUser).length = 0
  · rw [if_pos hlen]
    rw [List.length_eq_zero] at hlen
    rw [hlen]
    rfl
  · rw [if_neg hlen, hfilter, head_jsStableSort_reviewLe]

theorem c3_fresh_classification_witness :
    (60 : Int) - approvedPayloadPR.updated_at < 5 * 86400000
    ∧ calculatePRStatus 60 approvedPayloadPR "alice" = specClassify approvedPayloadPR "alice" :=
  ⟨by decide, c3_fresh_classification 60 approvedPayloadPR "alice" (by decide)⟩

/-- C9: `formatRelativeTime` is a pure function of `now` and the
timestamp and equals the claim's description `specFormatRelativeTime`:
"just now" under 60 seconds, then minutes, hours, days, weeks
(= days / 7) and months (= days / 30) with all displayed divisions
floored toward zero. -/
theorem c9_format_relative_time (now dateMs : Int) :
    formatRelativeTime now dateMs = specFormatRelativeTime now dateMs := by
  have h1000 : ∀ a : Int, a.fdiv 1000 = a / 1000 := fun a => Int.fdiv_eq_ediv a (by norm_num)
  have h60 : ∀ a : Int, a.fdiv 60 = a / 60 := fun a => Int.fdiv_eq_ediv a (by norm_num)
  have h24 : ∀ a : Int, a.fdiv 24 = a / 24 := fun a => Int.fdiv_eq_ediv a (by norm_num)
  have h7 : ∀ a : Int, a.fdiv 7 = a / 7 := fun a => Int.fdiv_eq_ediv a (by norm_num)
  have h30 : ∀ a : Int, a.fdiv 30 = a / 30 := fun a => Int.fdiv_eq_ediv a (by norm_num)
  simp only [formatRelativeTime, specFormatRelativeTime, h1000, h60, h24, h7, h30]
  by_cases hA : now - dateMs < 60 * 1000
  · rw [if_pos (show (now - dateMs) / 1000 < 60 by omega), if_pos hA]
  · rw [if_neg (show ¬ (now - dateMs) / 1000 < 60 by omega), if_neg hA]
    by_cases hB : now - dateMs < 60 * 60 * 1000
    · rw [if_pos (show (now - dateMs) / 1000 / 60 < 60 by omega), if_pos hB]
      rw [show (now - dateMs) / 1000 / 60 = (now - dateMs).tdiv (60 * 1000) from by
        rw [@Int.tdiv_eq_ediv (now - dateMs) (60 * 1000) (by omega) (by norm_num)]; omega]
    · rw [if_neg (show ¬ (now - dateMs) / 1000 / 60 < 60 by omega), if_neg hB]
      by_cases hC : now - dateMs < 24 * 60 * 60 * 1000
      · rw [if_pos (show (now - dateMs) / 1000 / 60 / 60 < 24 by omega), if_pos hC]
        rw [show (now - dateMs) / 1000 / 60 / 60 = (now - dateMs).tdiv (60 * 60 * 1000) from by
          rw [@Int.tdiv_eq_ediv (now - dateMs) (60 * 60 * 1000) (by omega) (by norm_num)]; omega]
      · rw [if_neg (show ¬ (now - dateMs) / 1000 / 60 / 60 < 24 by omega), if_neg hC]
        by_cases hD : now - dateMs < 7 * 86400000
        · rw [if_pos (show (now - dateMs) / 1000 / 60 / 60 / 24 < 7 by omega), if_pos hD]
          rw [show (now - dateMs) / 1000 / 60 / 60 / 24 = (now - dateMs).tdiv 86400000 from by
            rw [@Int.tdiv_eq_ediv (now - dateMs) 86400000 (by omega) (by norm_num)]; omega]
        · rw [if_neg (show ¬ (now - dateMs) / 1000 / 60 / 60 / 24 < 7 by omega), if_neg hD]
          have htd : (now - dateMs).tdiv 86400000 = (now - dateMs) / 86400000 :=
            @Int.tdiv_eq_ediv (now - dateMs) 86400000 (by omega) (by norm_num)
          by_cases hE : now - dateMs < 4 * 7 * 86400000
          · rw [if_pos (show (now - dateMs) / 1000 / 60 / 60 / 24 / 7 < 4 by omega), if_pos hE]
            rw [show ((now - dateMs).tdiv 86400000).tdiv 7 = (now - dateMs) / 1000 / 60 / 60 / 24 / 7 from by
              rw [htd, @Int.tdiv_eq_ediv ((now - dateMs) / 86400000) 7 (by omega) (by norm_num)]
              omega]
          · rw [if_neg (show ¬ (now - dateMs) / 1000 / 60 / 60 / 24 / 7 < 4 by omega), if_neg hE]
            rw [show ((now - dateMs).tdiv 86400000).tdiv 30 = (now - dateMs) / 1000 / 60 / 60 / 24 / 30 from by
              rw [htd, @Int.tdiv_eq_ediv ((now - dateMs) / 86400000) 30 (by omega) (by norm_num)]
              omega]

theorem fetchRepo_ok (now : Int) (login repo : String) (entries : List (GitHubPR × Option (List Review)))
    (hwf : repoWellFormed repo) :
    fetchRepo now login repo (Except.ok entries)
      = Except.ok (entries.map fun e => processPR now (applyReviewFetch e) repo login) := by
  rw [fetchRepo.eq_def, if_neg (by simp only [not_or]; exact ⟨hwf.1, hwf.2⟩)]

theorem fetchRepo_error (now : Int) (login repo : String) (f : RepoFailure)
    (hwf : repoWellFormed repo) :
    fetchRepo now login repo (Except.error f)
      = Except.error { message := if f.message = "" then "Failed to fetch PRs for " ++ repo else f.message,
                       status := f.status, rateLimitRemaining := f.rateLimitRemaining } := by
  rw [fetchRepo.eq_def, if_neg (by simp only [not_or]; exact ⟨hwf.1, hwf.2⟩)]

theorem fetchRepo_malformed (now : Int) (login repo : String) (resp : RepoListResponse)
    (hbad : (jsSplit repo '/').getD 0 "" = "" ∨ (jsSplit repo '/').getD 1 "" = "") :
    fetchRepo now login repo resp
      = Except.error { message := "Failed to fetch pull requests: Invalid repository format: " ++ repo,
                       status := 500, rateLimitRemaining := none } := by
  rw [fetchRepo.eq_def, if_pos hbad]

theorem syncRepos_ok (now : Int) (login : String) (repoResp : String → RepoListResponse) :
    ∀ rs : List String, (∀ p ∈ rs, repoWellFormed p ∧ ∃ l, repoResp p = Except.ok l) →
      syncRepos now login repoResp rs = Except.ok (rs.flatMap (repoOkOutput now login repoResp))
  | [], _ => rfl
  | r :: rs, h => by
    obtain ⟨hwf, l, hok⟩ := h r (List.mem_cons_self r rs)
    have ih := syncRepos_ok now login repoResp rs fun p hp => h p (List.mem_cons_of_mem r hp)
    rw [syncRepos, hok, fetchRepo_ok now login r l hwf, ih, List.flatMap_cons]
    have : repoOkOutput now login repoResp r
        = l.map fun e => processPR now (applyReviewFetch e) r login := by
      rw [repoOkOutput, hok]
    rw [this]

theorem syncRepos_error_after (now : Int) (login : String) (repoResp : String → RepoListResponse)
    (r : String) (rest : List String) (e : GitHubAPIError)
    (hfe : fetchRepo now login r (repoResp r) = Except.error e) :
    ∀ pre : List String, (∀ p ∈ pre, repoWellFormed p ∧ ∃ l, repoResp p = Except.ok l) →
      syncRepos now login repoResp (pre ++ r :: rest) = Except.error e
  | [], _ => by rw [List.nil_append, syncRepos, hfe]
  | p :: pre, h => by
    obtain ⟨hwf, l, hok⟩ := h p (List.mem_cons_self p pre)
    have ih := syncRepos_error_after now login repoResp r rest e hfe pre
      fun q hq => h q (List.mem_cons_of_mem p hq)
    rw [List.cons_append, syncRepos, hok, fetchRepo_ok now login p l hwf, ih]

theorem fetchPullRequests_ok_all (now : Int) (repos : List String) (token : String)
    (u : GitHubUser) (repoResp : String → RepoListResponse)
    (ht : token ≠ "")
    (h : ∀ p ∈ repos, repoWellFormed p ∧ ∃ l, repoResp p = Except.ok l) :
    fetchPullRequests now repos token (Except.ok u) repoResp
      = Except.ok (repos.flatMap (repoOkOutput now u.login repoResp)) := by
  rw [fetchPullRequests, if_neg ht]
  by_cases hrep : repos = []
  · rw [if_pos hrep, hrep]; rfl
  · rw [if_neg hrep, syncRepos_ok now u.login repoResp repos h]
    exact congrArg Except.ok (jsStableSort_prSortLe _)

/-- C1 (code bug): with two repositories whose fetches both succeed, the
first holding an older PR than the second, `fetchPullRequests` returns
the concatenated per-repository lists unsorted: the final sort compares
`new Date(pr.updatedAt).getTime()` where `updatedAt` is the relative-age
label ("…ago"), never a parsable date, so every comparison is `NaN`,
`SortCompare` maps it to `+0`, and the stable sort is the identity — the
output is not sorted by `updatedAtTimestamp` descending, contradicting
the code's own comment "Sort by updated_at (most recent first)". -/
theorem c1_sort_is_noop :
    fetchPullRequests 2000001 ["o/a", "o/b"] "t" (Except.ok aliceUser) unsortedResp
      = Except.ok [processPR 2000001 olderPR "o/a" "alice",
                   processPR 2000001 newerPR "o/b" "alice"]
    ∧ (processPR 2000001 olderPR "o/a" "alice").updatedAtTimestamp
        < (processPR 2000001 newerPR "o/b" "alice").updatedAtTimestamp :=
  ⟨by decide, by decide⟩

/-- C5 counterexample: when the provider's error body carries a truthy
`message`, the thrown `GitHubAPIError` repeats that message verbatim —
it does not carry the offending repository identity anywhere (its only
other fields are the numeric status and rate-limit quota): here the
message is "boom" and "a/b" occurs nowhere in it. -/
theorem c5_repo_failure_counterexample :
    fetchPullRequests 0 ["a/b"] "t" (Except.ok aliceUser) (fun _ => Except.error boomFailure)
      = Except.error { message := "boom", status := 500, rateLimitRemaining := some 42 }
    ∧ ¬ ("a/b".toList <:+: "boom".toList) :=
  ⟨by decide, by decide⟩

/-- C5 (amended): a failed per-repository list fetch aborts the whole
pass — no `ProcessedPR` is returned for any repository — with a
`GitHubAPIError` carrying the provider's HTTP status and rate-limit
quota when present; its message is the provider's message when
non-empty, otherwise a fallback naming the offending repository. -/
theorem c5_repo_failure_amended (now : Int) (token : String) (u : GitHubUser)
    (repoResp : String → RepoListResponse) (pre rest : List String) (r : String)
    (f : RepoFailure) (ht : token ≠ "")
    (hpre : ∀ p ∈ pre, repoWellFormed p ∧ ∃ l, repoResp p = Except.ok l)
    (hwf : repoWellFormed r) (hf : repoResp r = Except.error f) :
    fetchPullRequests now (pre ++ r :: rest) token (Except.ok u) repoResp
      = Except.error { message := if f.message = "" then "Failed to fetch PRs for " ++ r else f.message,
                       status := f.status, rateLimitRemaining := f.rateLimitRemaining } := by
  rw [fetchPullRequests, if_neg ht, if_neg (by simp)]
  rw [syncRepos_error_after now u.login repoResp r rest _ (by rw [hf, fetchRepo_error now u.login r f hwf]) pre hpre]

theorem c5_repo_failure_witness :
    ("t" : String) ≠ "" ∧ repoWellFormed "a/b"
    ∧ fetchPullRequests 0 ([] ++ "a/b" :: ["c/d"]) "t" (Except.ok aliceUser)
        (fun _ => Except.error boomFailure)
      = Except.error { message := "boom", status := 500, rateLimitRemaining := some 42 } :=
  ⟨by decide, by decide,
    by simpa using (c5_repo_failure_amended 0 "t" aliceUser
      (fun _ => Except.error boomFailure) [] ["c/d"] "a/b" boomFailure
      (by decide) (by simp) (by decide) rfl)⟩

/-- C6 counterexample: the review-fetch fallback returns the original PR
object, not one with an empty review list; if the list payload itself
already carries an approved review by the viewer, a failed review fetch
still yields status `reviewed` and a non-null
`lastReviewedByCurrentUser`, contradicting the claim that such a PR can
only be `pending`/`stagnant` with a null last-review field. -/
theorem c6_review_failure_counterexample :
    fetchPullRequests 60 ["o/a"] "t" (Except.ok aliceUser)
        (fun _ => Except.ok [(approvedPayloadPR, none)])
      = Except.ok [processPR 60 approvedPayloadPR "o/a" "alice"]
    ∧ (processPR 60 approvedPayloadPR "o/a" "alice").status = Status.reviewed
    ∧ (processPR 60 approvedPayloadPR "o/a" "alice").lastReviewedByCurrentUser = some 100 :=
  ⟨by decide, by decide, by decide⟩

/-- C6 (amended): a failed per-PR review fetch is non-fatal and leaves
the PR's review list as it was in the list payload; when that payload
carries no review list — as the provider's list endpoint does — the PR
still appears in the output, normalized as if it had an empty review
list, with `lastReviewedByCurrentUser = null` and a status that can only
be `pending` or `stagnant`. -/
theorem c6_review_failure_amended (now : Int) (token : String) (u : GitHubUser)
    (repoResp : String → RepoListResponse) (repos : List String) (r : String)
    (entries1 entries2 : List (GitHubPR × Option (List Review))) (pr : GitHubPR)
    (ht : token ≠ "")
    (hall : ∀ p ∈ repos, repoWellFormed p ∧ ∃ l, repoResp p = Except.ok l)
    (hr : r ∈ repos)
    (hresp : repoResp r = Except.ok (entries1 ++ (pr, none) :: entries2))
    (hrev : pr.reviews = none) :
    ∃ out, fetchPullRequests now repos token (Except.ok u) repoResp = Except.ok out
      ∧ processPR now pr r u.login ∈ out
      ∧ (processPR now pr r u.login).lastReviewedByCurrentUser = none
      ∧ ((processPR now pr r u.login).status = Status.pending
          ∨ (processPR now pr r u.login).status = Status.stagnant) := by
  refine ⟨_, fetchPullRequests_ok_all now repos token u repoResp ht hall, ?_, ?_, ?_⟩
  · rw [List.mem_flatMap]
    refine ⟨r, hr, ?_⟩
    rw [repoOkOutput, hresp]
    exact List.mem_map.mpr ⟨(pr, none), by simp, rfl⟩
  · simp [processPR, qualifyingReviews, hrev]
  · rw [processPR]
    by_cases hst : 5 * 86400000 ≤ now - pr.updated_at
    · right
      rw [calculatePRStatus, if_pos hst]
    · left
      rw [calculatePRStatus, if_neg hst]
      simp [qualifyingReviews, hrev]

theorem c6_review_failure_witness :
    ("t" : String) ≠ "" ∧ ("o/a" : String) ∈ ["o/a"] ∧ samplePR.reviews = none
    ∧ ∃ out, fetchPullRequests 60 ["o/a"] "t" (Except.ok aliceUser)
          (fun _ => Except.ok [(samplePR, none)]) = Except.ok out
        ∧ processPR 60 samplePR "o/a" "alice" ∈ out
        ∧ (processPR 60 samplePR "o/a" "alice").lastReviewedByCurrentUser = none
        ∧ ((processPR 60 samplePR "o/a" "alice").status = Status.pending
            ∨ (processPR 60 samplePR "o/a" "alice").status = Status.stagnant) :=
  ⟨by decide, by decide, by decide,
    by simpa using (c6_review_failure_amended 60 "t" aliceUser
      (fun _ => Except.ok [(samplePR, none)]) ["o/a"] "o/a" [] [] samplePR
      (by decide) (by intro p hp; simp at hp; subst hp; exact ⟨by decide, _, rfl⟩)
      (by simp) rfl rfl)⟩

/-- C7 counterexample: the reference "a/b/c" does not split into exactly
two segments, yet no error is raised: the destructuring takes the first
two segments, the network request for that entry is issued (the oracle's
payload reaches the output), and the pass completes successfully. -/
theorem c7_malformed_counterexample :
    (jsSplit "a/b/c" '/').length ≠ 2
    ∧ fetchPullRequests 60 ["a/b/c"] "t" (Except.ok aliceUser)
        (fun _ => Except.ok [(samplePR, none)])
      = Except.ok [processPR 60 samplePR "a/b/c" "alice"] :=
  ⟨by decide, by decide⟩

/-- C7 (amended): a reference whose first two `/`-separated segments are
not both non-empty (references with extra segments such as "a/b/c" are
accepted) fails the pass before that entry's network request — the
result is the same for every response oracle — with a `GitHubAPIError`
of status 500 wrapping the invalid-format message, and no result is
returned for any repository. -/
theorem c7_malformed_amended (now : Int) (token : String) (u : GitHubUser)
    (repoResp : String → RepoListResponse) (pre rest : List String) (r : String)
    (ht : token ≠ "")
    (hpre : ∀ p ∈ pre, repoWellFormed p ∧ ∃ l, repoResp p = Except.ok l)
    (hbad : (jsSplit r '/').getD 0 "" = "" ∨ (jsSplit r '/').getD 1 "" = "") :
    fetchPullRequests now (pre ++ r :: rest) token (Except.ok u) repoResp
      = Except.error { message := "Failed to fetch pull requests: Invalid repository format: " ++ r,
                       status := 500, rateLimitRemaining := none } := by
  rw [fetchPullRequests, if_neg ht, if_neg (by simp)]
  rw [syncRepos_error_after now u.login repoResp r rest _
    (fetchRepo_malformed now u.login r (repoResp r) hbad) pre hpre]

theorem c7_malformed_witness :
    ("t" : String) ≠ ""
    ∧ ((jsSplit "a//b" '/').getD 0 "" = "" ∨ (jsSplit "a//b" '/').getD 1 "" = "")
    ∧ fetchPullRequests 60 ([] ++ "a//b" :: []) "t" (Except.ok aliceUser)
        (fun _ => Except.ok [(samplePR, none)])
      = Except.error { message := "Failed to fetch pull requests: Invalid repository format: " ++ "a//b",
                       status := 500, rateLimitRemaining := none } :=
  ⟨by decide, by decide,
    (c7_malformed_amended 60 "t" aliceUser (fun _ => Except.ok [(samplePR, none)])
      [] [] "a//b" (by decide) (by simp) (by decide))⟩
